import Mathlib

/-!
Shallow embedding of the scriptify pipeline (src/main.rs) and proofs about it.

Modelling conventions:
* A filesystem path is a list of components from the root; the empty list is
  the filesystem root.  Rust's Path::join with a relative string is modelled
  as appending that string as one opaque component, and Path::parent as
  dropping the last component (returning none at the root).
* Filesystem state and other ambient effects (file contents, existence,
  directory-ness, the current directory, the SCRIPTIFY_SHEBANG environment
  variable, and the external collaborators: the toml parser, the module
  inliner and the ANSI highlighter) are gathered into a World record that is
  threaded explicitly.
* Functions that perform file-content reads or writes additionally return a
  trace of IO events, so that ordering claims about IO can be stated.
* Rust strings are Lean Strings; read_to_string and fs::write failures are
  modelled by Option-valued content and a write-permission predicate.
-/

/-- A filesystem path: components from the root ([] is the root). -/
abbrev SPath : Type := List String

/-- Rust Path::join with a relative path string, modelled as appending one
opaque component. -/
def joinRel (p : SPath) (s : String) : SPath := p ++ [s]

/-- Rust Path::parent: none at the root, otherwise drop the last component. -/
def parentDir (p : SPath) : Option SPath :=
  match p with
  | [] => Option.none
  | q => Option.some q.dropLast

/-- The manifest file name constant used throughout src/main.rs. -/
def cargoToml : String := "Cargo.toml"

/-- The value of a bin key in a parsed manifest, as interrogated by
parse_entry_point: an array of tables (each with an optional string path),
a single table (with an optional string path), or some other toml value for
which both as_array and as_table fail. -/
inductive BinDecl
  | array (bins : List (Option String))
  | table (path : Option String)
  | other
deriving DecidableEq

/-- A parsed manifest, restricted to the fields parse_entry_point reads:
the bin key if present, and the lib key if present (carrying its optional
string path; a lib value that is not a table or has no string path carries
none). -/
structure Manifest where
  bin : Option BinDecl
  lib : Option (Option String)
deriving DecidableEq

/-- Errors of the pipeline (src/main.rs uses boxed string errors; we tag the
distinct failure sites). -/
inductive Err
  | noInput
  | noManifestFound (dir : SPath)
  | tomlParse
  | noEntryPoint
  | ioRead (p : SPath)
  | ioWrite (p : SPath)
  | inlineFailed
  | unknownTheme (name : String)
  | noParentDir
  | canonFailed
deriving DecidableEq

/-- The condition of the first if-let chain of parse_entry_point
(lines 101-104): bin parses as an array, it has a first element, and that
element has a string path. -/
def binArrayFirstPath (m : Manifest) : Option String :=
  match m.bin with
  | Option.some (BinDecl.array bins) =>
    match bins.head? with
    | Option.some item => item
    | Option.none => Option.none
  | _ => Option.none

/-- The condition of the second if-let chain of parse_entry_point
(lines 109-111): bin parses as a single table with a string path. -/
def binTablePath (m : Manifest) : Option String :=
  match m.bin with
  | Option.some (BinDecl.table p) => p
  | _ => Option.none

/-- The default checks at the end of parse_entry_point (lines 127-142):
src/main.rs if it exists, else src/lib.rs if it exists, else the
no-entry-point error.  The existence oracle ex stands for Path::exists. -/
def default_entry (base_dir : SPath) (ex : SPath → Bool) : Except Err SPath :=
  if ex (joinRel base_dir "src/main.rs") then Except.ok (joinRel base_dir "src/main.rs")
  else if ex (joinRel base_dir "src/lib.rs") then Except.ok (joinRel base_dir "src/lib.rs")
  else Except.error Err.noEntryPoint

/-- Transcription of parse_entry_point (src/main.rs lines 97-143), applied to
an already-parsed manifest (the toml parse step is handled by the caller in
this embedding).  The two bin if-let chains are factored through
binArrayFirstPath and binTablePath; the lib branch and the trailing defaults
follow the source's fall-through structure. -/
def parse_entry_point (m : Manifest) (base_dir : SPath) (ex : SPath → Bool) :
    Except Err SPath :=
  match binArrayFirstPath m with
  | Option.some path => Except.ok (joinRel base_dir path)
  | Option.none =>
  match binTablePath m with
  | Option.some path => Except.ok (joinRel base_dir path)
  | Option.none =>
  match m.lib with
  | Option.some lib =>
    match lib with
    | Option.some path => Except.ok (joinRel base_dir path)
    | Option.none =>
      if ex (joinRel base_dir "src/lib.rs") then Except.ok (joinRel base_dir "src/lib.rs")
      else default_entry base_dir ex
  | Option.none => default_entry base_dir ex

/-- Transcription of find_cargo_toml (src/main.rs lines 191-204): walk up
from current, checking for Cargo.toml at each level before comparing the
level to the stop boundary, and stopping at the root when parent() is none.
The loop is rendered as recursion on the path length. -/
def find_cargo_toml (ex : SPath → Bool) (current : SPath) (stop_at : Option SPath) :
    Option SPath :=
  if ex (joinRel current cargoToml) then Option.some (joinRel current cargoToml)
  else if stop_at = Option.some current then Option.none
  else if h : current = ([] : List String) then Option.none
  else find_cargo_toml ex (current.dropLast) stop_at
termination_by (current : List String).length
decreasing_by
  simp only [List.length_dropLast]
  have hp : 0 < (current : List String).length := List.length_pos.mpr h
  omega

/-- The DEFAULT_SHEBANG constant of src/main.rs line 6. -/
def DEFAULT_SHEBANG : String :=
  "#!/usr/bin/env -S RUSTC_BOOTSTRAP=1 RUSTFLAGS=-Coverflow-checks cargo run -qZscript --release --manifest-path"

/-- Transcription of get_shebang (lines 246-248): the SCRIPTIFY_SHEBANG
environment variable (modelled as an Option) if set, else the default. -/
def get_shebang (env : Option String) : String :=
  match env with
  | Option.some v => v
  | Option.none => DEFAULT_SHEBANG

/-- Model of Rust str::ends_with applied to the newline character: the last
character of the string is a newline. -/
def endsWithNl (s : String) : Bool := s.data.getLast? == Option.some '\n'

/-- The manifest text as it appears in the script between the ---cargo line
and the closing delimiter: the raw content, with a newline appended only when
the content does not already end with one (lines 272-277). -/
def manifestBody (content : String) : String :=
  content ++ (if endsWithNl content then "" else "\n")

/-- Transcription of build_cargo_script_empty (lines 250-262) with the
environment passed explicitly: shebang, newline, ---cargo line, the fixed
empty [dependencies] section, closing delimiter, blank line, code. -/
def build_cargo_script_empty (env : Option String) (code : String) : String :=
  get_shebang env ++ "\n" ++ "---cargo\n" ++ "[dependencies]\n" ++ "---\n\n" ++ code

/-- The pure assembly step of build_cargo_script_with_manifest
(lines 264-282) once the manifest content has been read: shebang, newline,
---cargo line, manifest body (conditional trailing newline), closing
delimiter, blank line, code. -/
def assemble_with_manifest (env : Option String) (content code : String) : String :=
  get_shebang env ++ "\n" ++ "---cargo\n" ++ manifestBody content ++ "---\n\n" ++ code

/-- ManifestOption (src/main.rs lines 158-162). -/
inductive ManifestOption
  | path (p : SPath)
  | empty
  | none
deriving DecidableEq

/-- The CLI option set (src/main.rs lines 13-45), after clap parsing. -/
structure Cli where
  input : Option SPath
  output : Option SPath
  theme : Option String
  list_themes : Bool
  manifest : Option SPath
  zscript : Bool
  stop_at_cwd : Bool
  empty_manifest : Bool

/-- IO events: file-content reads and writes (existence and metadata checks
are not content IO and are not traced). Write events carry the written text. -/
inductive Ev
  | readFile (p : SPath)
  | writeFile (p : SPath) (text : String)
  | writeStdout (text : String)
deriving DecidableEq

/-- Ambient state: the filesystem, the environment and the external
collaborators (toml parser, module inliner, highlighter catalog/engine). -/
structure World where
  isDir : SPath → Bool
  fexists : SPath → Bool
  content : SPath → Option String
  writable : SPath → Bool
  canon : SPath → Option SPath
  cwd : Option SPath
  shebangEnv : Option String
  toml : String → Option Manifest
  inlineRes : SPath → Option String
  themes : List String
  hl : String → String → Option String

/-- Transcription of resolve_input_path (lines 80-95): a non-directory input
is returned unchanged; a directory must contain Cargo.toml, whose content is
read (one IO event) and parsed, and the entry point is resolved from it. -/
def resolve_input_path (w : World) (input : SPath) : Except Err SPath × List Ev :=
  if ¬ w.isDir input then (Except.ok input, [])
  else if ¬ w.fexists (joinRel input cargoToml) then
    (Except.error (Err.noManifestFound input), [])
  else
    match w.content (joinRel input cargoToml) with
    | Option.none =>
      (Except.error (Err.ioRead (joinRel input cargoToml)), [Ev.readFile (joinRel input cargoToml)])
    | Option.some s =>
      match w.toml s with
      | Option.none => (Except.error Err.tomlParse, [Ev.readFile (joinRel input cargoToml)])
      | Option.some m => (parse_entry_point m input w.fexists, [Ev.readFile (joinRel input cargoToml)])

/-- Model of inline_modules (lines 152-156): the external inliner reads the
input file (one IO event) and either fails or yields the merged, formatted
text, supplied by the World oracle. -/
def inline_modules (w : World) (input : SPath) : Except Err String × List Ev :=
  match w.inlineRes input with
  | Option.none => (Except.error Err.inlineFailed, [Ev.readFile input])
  | Option.some code => (Except.ok code, [Ev.readFile input])

/-- Transcription of resolve_manifest (lines 164-189): empty-manifest flag
first, then an explicit manifest path, then zscript auto-discovery
(canonicalize the input, search upward from its parent, optionally bounded
by the current working directory), else no manifest. -/
def resolve_manifest (w : World) (cli : Cli) (input : SPath) : Except Err ManifestOption :=
  if cli.empty_manifest then Except.ok ManifestOption.empty
  else
    match cli.manifest with
    | Option.some m => Except.ok (ManifestOption.path m)
    | Option.none =>
      if cli.zscript then
        match w.canon input with
        | Option.none => Except.error Err.canonFailed
        | Option.some input_abs =>
          match parentDir input_abs with
          | Option.none => Except.error Err.noParentDir
          | Option.some search_from =>
            let stop_at := if cli.stop_at_cwd then w.cwd else Option.none
            match find_cargo_toml w.fexists search_from stop_at with
            | Option.some m => Except.ok (ManifestOption.path m)
            | Option.none => Except.ok ManifestOption.none
      else Except.ok ManifestOption.none

/-- Model of Rust str::to_lowercase: lowercase each character (character-wise
map over the string data). -/
def lowerStr (s : String) : String := String.mk (s.data.map Char.toLower)

/-- Transcription of the theme lookup of highlight_code (lines 230-238): the
requested name is compared lowercased against the lowercased catalog names. -/
def lookup_theme (catalog : List String) (name : String) : Option String :=
  catalog.find? (fun t => lowerStr t == lowerStr name)

/-- Transcription of highlight_code (lines 230-244): an unresolvable theme is
an error; with a resolved theme, a failure of the external highlighter falls
back to the original code text. -/
def highlight_code (w : World) (code : String) (theme_name : String) : Except Err String :=
  match lookup_theme w.themes theme_name with
  | Option.none => Except.error (Err.unknownTheme theme_name)
  | Option.some t =>
    match w.hl t code with
    | Option.some colored => Except.ok colored
    | Option.none => Except.ok code

/-- Transcription of apply_syntax_highlighting (lines 211-216). -/
def apply_syntax_highlighting (w : World) (code : String) (theme : Option String) :
    Except Err String :=
  match theme with
  | Option.some t => highlight_code w code t
  | Option.none => Except.ok code

/-- Transcription of read_manifest (lines 226-228): reading the manifest file
content is one IO event; a missing or unreadable file is an error. -/
def read_manifest (w : World) (manifest : SPath) : Except Err String × List Ev :=
  match w.content manifest with
  | Option.none => (Except.error (Err.ioRead manifest), [Ev.readFile manifest])
  | Option.some s => (Except.ok s, [Ev.readFile manifest])

/-- Transcription of build_cargo_script_with_manifest (lines 264-282): read
the manifest, then assemble the script envelope. -/
def build_cargo_script_with_manifest (w : World) (manifest : SPath) (code : String) :
    Except Err String × List Ev :=
  match read_manifest w manifest with
  | (Except.error e, tr) => (Except.error e, tr)
  | (Except.ok content, tr) => (Except.ok (assemble_with_manifest w.shebangEnv content code), tr)

/-- Transcription of format_output (lines 218-224). -/
def format_output (w : World) (code : String) (manifest : ManifestOption) :
    Except Err String × List Ev :=
  match manifest with
  | ManifestOption.path p => build_cargo_script_with_manifest w p code
  | ManifestOption.empty => (Except.ok (build_cargo_script_empty w.shebangEnv code), [])
  | ManifestOption.none => (Except.ok code, [])

/-- Transcription of prepare_output (lines 206-209): highlight first, then
format; a highlighting-stage error aborts before any manifest read. -/
def prepare_output (w : World) (code : String) (theme : Option String)
    (manifest : ManifestOption) : Except Err String × List Ev :=
  match apply_syntax_highlighting w code theme with
  | Except.error e => (Except.error e, [])
  | Except.ok hl => format_output w hl manifest

/-- Transcription of run (lines 63-78): resolve the input, inline modules,
resolve the manifest selection, prepare the output, and write it to the
output file or to standard output.  The accumulated event list records the
order of file-content reads and writes. -/
def run (w : World) (cli : Cli) : Except Err Unit × List Ev :=
  match cli.input with
  | Option.none => (Except.error Err.noInput, [])
  | Option.some input_path =>
    match resolve_input_path w input_path with
    | (Except.error e, tr1) => (Except.error e, tr1)
    | (Except.ok input, tr1) =>
      match inline_modules w input with
      | (Except.error e, tr2) => (Except.error e, tr1 ++ tr2)
      | (Except.ok code, tr2) =>
        match resolve_manifest w cli input with
        | Except.error e => (Except.error e, tr1 ++ tr2)
        | Except.ok manifest =>
          match prepare_output w code cli.theme manifest with
          | (Except.error e, tr3) => (Except.error e, tr1 ++ tr2 ++ tr3)
          | (Except.ok out, tr3) =>
            match cli.output with
            | Option.some out_path =>
              if w.writable out_path then
                (Except.ok (), tr1 ++ tr2 ++ tr3 ++ [Ev.writeFile out_path out])
              else (Except.error (Err.ioWrite out_path), tr1 ++ tr2 ++ tr3)
            | Option.none => (Except.ok (), tr1 ++ tr2 ++ tr3 ++ [Ev.writeStdout out])

/-- C1: for every directory input whose manifest parses, entry resolution
follows the strict precedence: (1) first element's path of an array-style
bin declaration, (2) single-table bin path, (3) explicit lib path, or for a
lib table without a path the default src/lib.rs only if it exists,
(4) src/main.rs if it exists, (5) src/lib.rs if it exists; in particular an
array-style bin path wins over any lib or default declaration. -/
theorem C1_entry_precedence (m : Manifest) (base : SPath) (ex : SPath → Bool) :
    (∀ p, binArrayFirstPath m = Option.some p →
      parse_entry_point m base ex = Except.ok (joinRel base p)) ∧
    (binArrayFirstPath m = Option.none → ∀ p, binTablePath m = Option.some p →
      parse_entry_point m base ex = Except.ok (joinRel base p)) ∧
    (binArrayFirstPath m = Option.none → binTablePath m = Option.none →
      ∀ p, m.lib = Option.some (Option.some p) →
      parse_entry_point m base ex = Except.ok (joinRel base p)) ∧
    (binArrayFirstPath m = Option.none → binTablePath m = Option.none →
      m.lib = Option.some Option.none → ex (joinRel base "src/lib.rs") = true →
      parse_entry_point m base ex = Except.ok (joinRel base "src/lib.rs")) ∧
    (binArrayFirstPath m = Option.none → binTablePath m = Option.none →
      (m.lib = Option.none ∨
        (m.lib = Option.some Option.none ∧ ex (joinRel base "src/lib.rs") = false)) →
      ex (joinRel base "src/main.rs") = true →
      parse_entry_point m base ex = Except.ok (joinRel base "src/main.rs")) ∧
    (binArrayFirstPath m = Option.none → binTablePath m = Option.none →
      (m.lib = Option.none ∨
        (m.lib = Option.some Option.none ∧ ex (joinRel base "src/lib.rs") = false)) →
      ex (joinRel base "src/main.rs") = false → ex (joinRel base "src/lib.rs") = true →
      parse_entry_point m base ex = Except.ok (joinRel base "src/lib.rs")) := by
  refine ⟨?_, ?_, ?_, ?_, ?_, ?_⟩
  · intro p h
    simp [parse_entry_point, h]
  · intro h1 p h2
    simp [parse_entry_point, h1, h2]
  · intro h1 h2 p h3
    simp [parse_entry_point, h1, h2, h3]
  · intro h1 h2 h3 h4
    simp [parse_entry_point, h1, h2, h3, h4]
  · intro h1 h2 h3 h4
    rcases h3 with h3 | ⟨h3, h5⟩
    · simp [parse_entry_point, h1, h2, h3, default_entry, h4]
    · simp [parse_entry_point, h1, h2, h3, h5, default_entry, h4]
  · intro h1 h2 h3 h4 h5
    rcases h3 with h3 | ⟨h3, h6⟩
    · simp [parse_entry_point, h1, h2, h3, default_entry, h4, h5]
    · rw [h5] at h6
      simp at h6

/-- Witness for C1: a manifest declaring both an array-style bin target and
an explicit lib path resolves to the bin path (even with no files on disk),
and a manifest with no targets resolves to an existing src/main.rs. -/
theorem C1_entry_precedence_witness :
    parse_entry_point
      ⟨Option.some (BinDecl.array [Option.some "src/tool.rs"]),
        Option.some (Option.some "other.rs")⟩ ["proj"] (fun _ => false) =
      Except.ok ["proj", "src/tool.rs"] ∧
    parse_entry_point ⟨Option.none, Option.none⟩ ["proj"]
      (fun p => p = ["proj", "src/main.rs"]) =
      Except.ok ["proj", "src/main.rs"] :=
  ⟨(C1_entry_precedence
      ⟨Option.some (BinDecl.array [Option.some "src/tool.rs"]),
        Option.some (Option.some "other.rs")⟩ ["proj"] (fun _ => false)).1
      "src/tool.rs" rfl,
   (C1_entry_precedence ⟨Option.none, Option.none⟩ ["proj"]
      (fun p => p = ["proj", "src/main.rs"])).2.2.2.2.1 rfl rfl (Or.inl rfl) (by decide)⟩

/-- C6: a parsed manifest with no usable binary-target path and no lib
target, in a directory where neither src/main.rs nor src/lib.rs exists,
makes entry resolution fail with the no-entry-point error. -/
theorem C6_no_entry_point (m : Manifest) (base : SPath) (ex : SPath → Bool)
    (h1 : binArrayFirstPath m = Option.none) (h2 : binTablePath m = Option.none)
    (h3 : m.lib = Option.none) (h4 : ex (joinRel base "src/main.rs") = false)
    (h5 : ex (joinRel base "src/lib.rs") = false) :
    parse_entry_point m base ex = Except.error Err.noEntryPoint := by
  simp [parse_entry_point, h1, h2, h3, default_entry, h4, h5]

/-- Witness for C6: an empty manifest in a directory with no files at all. -/
theorem C6_no_entry_point_witness :
    parse_entry_point ⟨Option.none, Option.none⟩ ["proj"] (fun _ => false) =
      Except.error Err.noEntryPoint :=
  C6_no_entry_point ⟨Option.none, Option.none⟩ ["proj"] (fun _ => false)
    rfl rfl rfl rfl rfl

/-- C9: a declared bin or lib path is returned joined to the directory with
no existence check: the result is the same for every existence oracle, and
in particular resolution succeeds under the oracle under which no file
exists at all. -/
theorem C9_no_existence_check (m : Manifest) (base : SPath) :
    (∀ p, binArrayFirstPath m = Option.some p → ∀ ex : SPath → Bool,
      parse_entry_point m base ex = Except.ok (joinRel base p)) ∧
    (binArrayFirstPath m = Option.none → ∀ p, binTablePath m = Option.some p →
      ∀ ex : SPath → Bool,
      parse_entry_point m base ex = Except.ok (joinRel base p)) ∧
    (binArrayFirstPath m = Option.none → binTablePath m = Option.none →
      ∀ p, m.lib = Option.some (Option.some p) → ∀ ex : SPath → Bool,
      parse_entry_point m base ex = Except.ok (joinRel base p)) ∧
    (∀ p, binArrayFirstPath m = Option.some p →
      parse_entry_point m base (fun _ => false) = Except.ok (joinRel base p)) := by
  refine ⟨?_, ?_, ?_, ?_⟩
  · intro p h ex
    simp [parse_entry_point, h]
  · intro h1 p h2 ex
    simp [parse_entry_point, h1, h2]
  · intro h1 h2 p h3 ex
    simp [parse_entry_point, h1, h2, h3]
  · intro p h
    simp [parse_entry_point, h]

/-- Witness for C9: a bin path to a file that exists under no oracle is
still resolved. -/
theorem C9_no_existence_check_witness :
    parse_entry_point ⟨Option.some (BinDecl.array [Option.some "src/ghost.rs"]),
      Option.none⟩ ["proj"] (fun _ => false) = Except.ok ["proj", "src/ghost.rs"] :=
  (C9_no_existence_check
    ⟨Option.some (BinDecl.array [Option.some "src/ghost.rs"]), Option.none⟩
    ["proj"]).2.2.2 "src/ghost.rs" rfl

/-- Helper for C2: any result of the upward search is Cargo.toml directly
inside an ancestor of the start directory (induction on the path length). -/
theorem find_aux_ancestor (ex : SPath → Bool) (stop_at : Option SPath) :
    ∀ n : Nat, ∀ current : SPath, current.length ≤ n → ∀ res : SPath,
    find_cargo_toml ex current stop_at = Option.some res →
    ∃ d : SPath, d <+: current ∧ res = joinRel d cargoToml := by
  intro n
  induction n with
  | zero =>
    intro current hlen res hfind
    have hnil : current = [] := List.length_eq_zero.mp (Nat.le_zero.mp hlen)
    subst hnil
    rw [find_cargo_toml] at hfind
    split at hfind
    · exact ⟨[], List.prefix_refl _, by
        injection hfind with h
        exact h.symm⟩
    · split at hfind
      · cases hfind
      · simp at hfind
  | succ k ih =>
    intro current hlen res hfind
    rw [find_cargo_toml] at hfind
    split at hfind
    · exact ⟨current, List.prefix_refl _, by
        injection hfind with h
        exact h.symm⟩
    · split at hfind
      · cases hfind
      · split at hfind
        · cases hfind
        · rename_i hex hstop hne
          have hlen2 : current.dropLast.length ≤ k := by
            rw [List.length_dropLast]
            have : 0 < current.length := List.length_pos.mpr hne
            omega
          obtain ⟨d, hd, hres⟩ := ih current.dropLast hlen2 res hfind
          exact ⟨d, hd.trans ( List.dropLast_prefix current), hres⟩

/-- Helper for C2: when the boundary itself holds a Cargo.toml and no level
strictly between the start and the boundary does, the search returns the
boundary manifest - the existence check runs before the boundary
comparison. -/
theorem find_aux_at_boundary (ex : SPath → Bool) :
    ∀ n : Nat, ∀ current b : SPath, current.length ≤ n → b <+: current →
    ex (joinRel b cargoToml) = true →
    (∀ d : SPath, d <+: current → b <+: d → d ≠ b → ex (joinRel d cargoToml) = false) →
    find_cargo_toml ex current (Option.some b) = Option.some (joinRel b cargoToml) := by
  intro n
  induction n with
  | zero =>
    intro current b hlen hb hex _
    have hnil : current = [] := List.length_eq_zero.mp (Nat.le_zero.mp hlen)
    subst hnil
    have hbnil : b = [] := List.prefix_nil.mp hb
    subst hbnil
    rw [find_cargo_toml]
    simp [hex]
  | succ k ih =>
    intro current b hlen hb hex hall
    by_cases hcb : current = b
    · subst hcb
      rw [find_cargo_toml]
      simp [hex]
    · have hexc : ex (joinRel current cargoToml) = false :=
        hall current (List.prefix_refl _) hb hcb
      rw [find_cargo_toml]
      rw [hexc]
      have hne : current ≠ [] := by
        intro hnil
        exact hcb (hnil ▸ (List.prefix_nil.mp (hnil ▸ hb)).symm)
      have hbc : b ≠ current := fun h => hcb h.symm
      have hstop : (Option.some b = Option.some current) = False := by
        simp [hbc]
      simp only [Bool.false_eq_true, if_false, hstop, dif_neg hne]
      have hbd : b <+: current.dropLast := by
        obtain ⟨t, rfl⟩ := hb
        match t with
        | [] => exact absurd (List.append_nil b) hcb
        | a :: ts =>
          rw [List.dropLast_append_of_ne_nil _ (by simp)]
          exact ⟨(a :: ts).dropLast, rfl⟩
      have hlen2 : current.dropLast.length ≤ k := by
        rw [List.length_dropLast]
        have : 0 < current.length := List.length_pos.mpr hne
        omega
      exact ih current.dropLast b hlen2 hbd hex
        (fun d hd hb2 hne2 => hall d (hd.trans ( List.dropLast_prefix current)) hb2 hne2)

/-- Helper for C2: when no level from the start down to the boundary holds a
Cargo.toml, the search returns none at the boundary instead of continuing to
the parent, whatever exists above the boundary. -/
theorem find_aux_none_beyond (ex : SPath → Bool) :
    ∀ n : Nat, ∀ current b : SPath, current.length ≤ n → b <+: current →
    (∀ d : SPath, d <+: current → b <+: d → ex (joinRel d cargoToml) = false) →
    find_cargo_toml ex current (Option.some b) = Option.none := by
  intro n
  induction n with
  | zero =>
    intro current b hlen hb hall
    have hnil : current = [] := List.length_eq_zero.mp (Nat.le_zero.mp hlen)
    subst hnil
    have hbnil : b = [] := List.prefix_nil.mp hb
    subst hbnil
    have hexc : ex (joinRel [] cargoToml) = false :=
      hall [] (List.prefix_refl _) (List.prefix_refl _)
    rw [find_cargo_toml]
    simp [hexc]
  | succ k ih =>
    intro current b hlen hb hall
    have hexc : ex (joinRel current cargoToml) = false :=
      hall current (List.prefix_refl _) hb
    by_cases hcb : current = b
    · subst hcb
      rw [find_cargo_toml]
      simp [hexc]
    · rw [find_cargo_toml]
      rw [hexc]
      have hne : current ≠ [] := by
        intro hnil
        exact hcb (hnil ▸ (List.prefix_nil.mp (hnil ▸ hb)).symm)
      have hbc : b ≠ current := fun h => hcb h.symm
      have hstop : (Option.some b = Option.some current) = False := by
        simp [hbc]
      simp only [Bool.false_eq_true, if_false, hstop, dif_neg hne]
      have hbd : b <+: current.dropLast := by
        obtain ⟨t, rfl⟩ := hb
        match t with
        | [] => exact absurd (List.append_nil b) hcb
        | a :: ts =>
          rw [List.dropLast_append_of_ne_nil _ (by simp)]
          exact ⟨(a :: ts).dropLast, rfl⟩
      have hlen2 : current.dropLast.length ≤ k := by
        rw [List.length_dropLast]
        have : 0 < current.length := List.length_pos.mpr hne
        omega
      exact ih current.dropLast b hlen2 hbd
        (fun d hd hb2 => hall d (hd.trans ( List.dropLast_prefix current)) hb2)

/-- C2: the Manifest Locator only returns a manifest directly inside an
ancestor of its start directory; the existence check precedes the boundary
comparison at the same level, so a manifest exactly at the boundary is still
returned; and when the boundary holds no manifest the search returns none
there rather than continuing to the parent. -/
theorem C2_manifest_locator (ex : SPath → Bool) :
    (∀ (current : SPath) (stop_at : Option SPath) (res : SPath),
      find_cargo_toml ex current stop_at = Option.some res →
      ∃ d : SPath, d <+: current ∧ res = joinRel d cargoToml) ∧
    (∀ current b : SPath, b <+: current → ex (joinRel b cargoToml) = true →
      (∀ d : SPath, d <+: current → b <+: d → d ≠ b → ex (joinRel d cargoToml) = false) →
      find_cargo_toml ex current (Option.some b) = Option.some (joinRel b cargoToml)) ∧
    (∀ current b : SPath, b <+: current →
      (∀ d : SPath, d <+: current → b <+: d → ex (joinRel d cargoToml) = false) →
      find_cargo_toml ex current (Option.some b) = Option.none) := by
  refine ⟨?_, ?_, ?_⟩
  · intro current stop_at res h
    exact find_aux_ancestor ex stop_at current.length current (Nat.le_refl _) res h
  · intro current b hb hex hall
    exact find_aux_at_boundary ex current.length current b (Nat.le_refl _) hb hex hall
  · intro current b hb hall
    exact find_aux_none_beyond ex current.length current b (Nat.le_refl _) hb hall

/-- Witness for C2: with a manifest only at /ws, searching from /ws/proj with
boundary /ws/proj returns none, while searching with boundary /ws returns the
manifest at /ws. -/
theorem C2_manifest_locator_witness :
    find_cargo_toml (fun p => decide (p = ["ws", "Cargo.toml"])) ["ws", "proj"]
      (Option.some ["ws", "proj"]) = Option.none ∧
    find_cargo_toml (fun p => decide (p = ["ws", "Cargo.toml"])) ["ws", "proj"]
      (Option.some ["ws"]) = Option.some (joinRel ["ws"] cargoToml) := by
  constructor
  · exact (C2_manifest_locator (fun p => decide (p = ["ws", "Cargo.toml"]))).2.2
      ["ws", "proj"] ["ws", "proj"] (List.prefix_refl _)
      (fun d hd hb => by
        have hdb : d = ["ws", "proj"] :=
          hd.eq_of_length (Nat.le_antisymm hd.length_le hb.length_le)
        subst hdb
        decide)
  · exact (C2_manifest_locator (fun p => decide (p = ["ws", "Cargo.toml"]))).2.1
      ["ws", "proj"] ["ws"] (by decide) (by decide)
      (fun d hd hb hne => by
        have hm := (List.mem_inits d ["ws", "proj"]).mpr hd
        fin_cases hm
        · decide
        · exact absurd rfl hne
        · decide)

/-- A minimal World used to instantiate witnesses: empty filesystem, no
environment override, identity canonicalization, no themes. -/
def mkWorld : World where
  isDir := fun _ => false
  fexists := fun _ => false
  content := fun _ => Option.none
  writable := fun _ => true
  canon := fun p => Option.some p
  cwd := Option.none
  shebangEnv := Option.none
  toml := fun _ => Option.none
  inlineRes := fun _ => Option.none
  themes := []
  hl := fun _ _ => Option.none

/-- C3: the materializer output is exactly determined by the manifest
selection: Absent passes the code through unchanged (touching no file);
Empty produces the shebang line, the fixed empty-dependencies manifest block
and the code, reading no file on disk; a manifest path produces the shebang
line, the delimiters, the manifest raw text with a newline appended only if
missing, and the code, with exactly one read of that manifest file. -/
theorem C3_format_output (w : World) (code : String) :
    format_output w code ManifestOption.none = (Except.ok code, []) ∧
    format_output w code ManifestOption.empty =
      (Except.ok (get_shebang w.shebangEnv ++ "\n---cargo\n[dependencies]\n---\n\n" ++ code),
        []) ∧
    (∀ (p : SPath) (t : String), w.content p = Option.some t →
      format_output w code (ManifestOption.path p) =
        (Except.ok (get_shebang w.shebangEnv ++ "\n---cargo\n" ++ t ++
          (if endsWithNl t then "" else "\n") ++ "---\n\n" ++ code),
          [Ev.readFile p])) := by
  refine ⟨rfl, ?_, ?_⟩
  · show (Except.ok (build_cargo_script_empty w.shebangEnv code), ([] : List Ev)) = _
    have h : build_cargo_script_empty w.shebangEnv code =
        get_shebang w.shebangEnv ++ "\n---cargo\n[dependencies]\n---\n\n" ++ code := by
      rw [build_cargo_script_empty,
        show ("\n---cargo\n[dependencies]\n---\n\n" : String) =
          "\n" ++ "---cargo\n" ++ "[dependencies]\n" ++ "---\n\n" from rfl]
      simp [String.append_assoc]
    rw [h]
  · intro p t h
    have hasm : assemble_with_manifest w.shebangEnv t code =
        get_shebang w.shebangEnv ++ "\n---cargo\n" ++ t ++
          (if endsWithNl t then "" else "\n") ++ "---\n\n" ++ code := by
      rw [assemble_with_manifest, manifestBody,
        show ("\n---cargo\n" : String) = "\n" ++ "---cargo\n" from rfl]
      simp [String.append_assoc]
    simp only [format_output, build_cargo_script_with_manifest, read_manifest, h, hasm]

/-- Witness for C3: a concrete world whose manifest read yields a text
without a trailing newline. -/
theorem C3_format_output_witness :
    format_output
      { mkWorld with
        content := fun _ => Option.some "dep = 1",
        shebangEnv := Option.some "#!sh" } "CODE" (ManifestOption.path ["m.toml"]) =
      (Except.ok (get_shebang (Option.some "#!sh") ++ "\n---cargo\n" ++ "dep = 1" ++
        (if endsWithNl "dep = 1" then "" else "\n") ++ "---\n\n" ++ "CODE"),
        [Ev.readFile ["m.toml"]]) :=
  (C3_format_output
    { mkWorld with
      content := fun _ => Option.some "dep = 1",
      shebangEnv := Option.some "#!sh" } "CODE").2.2 ["m.toml"] "dep = 1" rfl

/-- The property asserted by the spec sentence under test for C4: the string
ends with one newline and not with two. -/
def endsWithExactlyOneNl (s : String) : Bool :=
  (s.data.getLast? == Option.some '\n') && !(s.data.dropLast.getLast? == Option.some '\n')

/-- Counterexample for C4: a manifest text that already ends with two
newlines is embedded unchanged, so the text before the closing delimiter
ends with two newlines, not exactly one. -/
theorem C4_counterexample :
    endsWithNl "a\n\n" = true ∧ manifestBody "a\n\n" = "a\n\n" ∧
    endsWithExactlyOneNl (manifestBody "a\n\n") = false := by
  refine ⟨by decide, by decide, by decide⟩

/-- C4 (amended): the embedded manifest text always ends with at least one
newline before the closing delimiter: exactly one newline is appended when
the source text lacks a trailing newline, and the text is embedded unchanged
when it already ends with one. -/
theorem C4_trailing_newline (content : String) :
    endsWithNl (manifestBody content) = true ∧
    (endsWithNl content = false → manifestBody content = content ++ "\n") ∧
    (endsWithNl content = true → manifestBody content = content) := by
  refine ⟨?_, ?_, ?_⟩
  · by_cases hp : content.data.getLast? = Option.some '\n'
    · simp [manifestBody, endsWithNl, hp]
    · simp only [manifestBody, endsWithNl, hp, beq_iff_eq, if_false, decide_False]
      simp only [String.data_append, hp]
      simp [List.getLast?_concat]
  · intro h
    simp [manifestBody, h]
  · intro h
    simp [manifestBody, h]

/-- Witness for C4: a text without trailing newline gets exactly one
appended; a newline-terminated text is embedded unchanged. -/
theorem C4_trailing_newline_witness :
    endsWithNl "x" = false ∧ manifestBody "x" = "x" ++ "\n" ∧
    endsWithNl "y\n" = true ∧ manifestBody "y\n" = "y\n" :=
  ⟨by decide, (C4_trailing_newline "x").2.1 (by decide), by decide,
    (C4_trailing_newline "y\n").2.2 (by decide)⟩

/-- C5: a set environment override is used verbatim as the shebang value and
an unset one falls back to the built-in default; for both envelope shapes
the whole text after the shebang is an expression independent of the
environment, so two runs differing only in the override differ in nothing
but the shebang line. -/
theorem C5_shebang_override :
    (∀ v : String, get_shebang (Option.some v) = v) ∧
    get_shebang Option.none = DEFAULT_SHEBANG ∧
    (∀ (env : Option String) (code : String),
      build_cargo_script_empty env code =
        get_shebang env ++ ("\n---cargo\n[dependencies]\n---\n\n" ++ code)) ∧
    (∀ (env : Option String) (content code : String),
      assemble_with_manifest env content code =
        get_shebang env ++ ("\n---cargo\n" ++ (manifestBody content ++ ("---\n\n" ++ code)))) := by
  refine ⟨fun v => rfl, rfl, ?_, ?_⟩
  · intro env code
    rw [build_cargo_script_empty,
      show ("\n---cargo\n[dependencies]\n---\n\n" : String) =
        "\n" ++ "---cargo\n" ++ "[dependencies]\n" ++ "---\n\n" from rfl]
    simp [String.append_assoc]
  · intro env content code
    rw [assemble_with_manifest,
      show ("\n---cargo\n" : String) = "\n" ++ "---cargo\n" from rfl]
    simp [String.append_assoc]

/-- Helper: input resolution performs only file reads, never writes. -/
theorem resolve_input_path_reads (w : World) (i : SPath) :
    ∀ e ∈ (resolve_input_path w i).2, ∃ p, e = Ev.readFile p := by
  unfold resolve_input_path
  split
  · simp
  · split
    · simp
    · split <;> [skip; split] <;> simp

/-- Helper: the inlining stage performs exactly one read, of its input. -/
theorem inline_modules_reads (w : World) (i : SPath) :
    (inline_modules w i).2 = [Ev.readFile i] := by
  unfold inline_modules
  split <;> rfl

/-- C7 (amended): the theme name is looked up by comparing lowercased
strings, so any two names with the same lowering resolve identically; an
unknown theme makes the run fail with the unknown-theme error, and at that
point nothing has been written and the only IO performed consists of the
reads done by input resolution and inlining (the embedding manifest is never
read).  The original claim that no file at all is read before the error is
refuted by the counterexample. -/
theorem C7_unknown_theme (w : World) (cli : Cli) (ip rp : SPath) (code t : String)
    (tr1 tr2 : List Ev) (mo : ManifestOption)
    (hin : cli.input = Option.some ip)
    (h1 : resolve_input_path w ip = (Except.ok rp, tr1))
    (h2 : inline_modules w rp = (Except.ok code, tr2))
    (h3 : resolve_manifest w cli rp = Except.ok mo)
    (hth : cli.theme = Option.some t)
    (hlk : lookup_theme w.themes t = Option.none) :
    run w cli = (Except.error (Err.unknownTheme t), tr1 ++ tr2) ∧
    (∀ e ∈ tr1 ++ tr2, ∃ p, e = Ev.readFile p) ∧
    (∀ t2 : String, lowerStr t2 = lowerStr t → lookup_theme w.themes t2 = Option.none) := by
  refine ⟨?_, ?_, ?_⟩
  · simp only [run, hin, h1, h2, h3, prepare_output, apply_syntax_highlighting, hth,
      highlight_code, hlk]
    simp
  · intro e he
    rcases List.mem_append.mp he with h | h
    · have hr := resolve_input_path_reads w ip e
      rw [h1] at hr
      exact hr h
    · have h2tr : tr2 = [Ev.readFile rp] := by
        have hi := inline_modules_reads w rp
        rw [h2] at hi
        exact hi
      rw [h2tr] at h
      simp at h
      exact ⟨rp, h⟩
  · intro t2 ht2
    rw [lookup_theme, List.find?_eq_none] at hlk ⊢
    intro x hx
    rw [ht2]
    exact hlk x hx

/-- Counterexample for C7: a run on a plain source file with an unknown theme
fails with the unknown-theme error, but its IO trace already contains the
read of the input file, so the error is not reported before any IO. -/
theorem C7_counterexample :
    (run { mkWorld with inlineRes := fun _ => Option.some "fn main()" }
      ⟨Option.some ["f.rs"], Option.none, Option.some "nope", false, Option.none,
        false, false, false⟩).1 = Except.error (Err.unknownTheme "nope") ∧
    (run { mkWorld with inlineRes := fun _ => Option.some "fn main()" }
      ⟨Option.some ["f.rs"], Option.none, Option.some "nope", false, Option.none,
        false, false, false⟩).2 = [Ev.readFile ["f.rs"]] ∧
    (run { mkWorld with inlineRes := fun _ => Option.some "fn main()" }
      ⟨Option.some ["f.rs"], Option.none, Option.some "nope", false, Option.none,
        false, false, false⟩).2 ≠ [] :=
  ⟨rfl, rfl, by decide⟩

/-- Witness for C7: concrete run on which the amended statement is
instantiated. -/
theorem C7_unknown_theme_witness :
    run { mkWorld with inlineRes := fun _ => Option.some "fn main()" }
      ⟨Option.some ["g.rs"], Option.none, Option.some "nope", false, Option.none,
        false, false, false⟩ =
      (Except.error (Err.unknownTheme "nope"), [] ++ [Ev.readFile ["g.rs"]]) :=
  (C7_unknown_theme { mkWorld with inlineRes := fun _ => Option.some "fn main()" }
    ⟨Option.some ["g.rs"], Option.none, Option.some "nope", false, Option.none,
      false, false, false⟩
    ["g.rs"] ["g.rs"] "fn main()" "nope" [] [Ev.readFile ["g.rs"]]
    ManifestOption.none rfl rfl rfl rfl rfl rfl).1

/-- C8: when the requested theme resolves in the catalog but the external
highlighter fails, highlight_code returns the original code text and the
pipeline proceeds exactly as it would with unhighlighted text; by contrast a
theme-lookup failure and a manifest-read failure are propagated as errors,
not swallowed. -/
theorem C8_highlight_fallback (w : World) (code t th : String) (m : ManifestOption)
    (hfound : lookup_theme w.themes t = Option.some th)
    (hfail : w.hl th code = Option.none) :
    highlight_code w code t = Except.ok code ∧
    prepare_output w code (Option.some t) m = format_output w code m ∧
    (∀ t2, lookup_theme w.themes t2 = Option.none →
      prepare_output w code (Option.some t2) m = (Except.error (Err.unknownTheme t2), [])) ∧
    (∀ p : SPath, w.content p = Option.none →
      (format_output w code (ManifestOption.path p)).1 = Except.error (Err.ioRead p)) := by
  refine ⟨?_, ?_, ?_, ?_⟩
  · simp [highlight_code, hfound, hfail]
  · simp [prepare_output, apply_syntax_highlighting, highlight_code, hfound, hfail]
  · intro t2 h
    simp [prepare_output, apply_syntax_highlighting, highlight_code, h]
  · intro p h
    simp [format_output, build_cargo_script_with_manifest, read_manifest, h]

/-- Witness for C8: catalog with one theme, case-insensitive hit, failing
highlighter (the mkWorld highlighter always fails). -/
theorem C8_highlight_fallback_witness :
    highlight_code
      { mkWorld with themes := ["Dracula"] }
      "CODE" "dracula" = Except.ok "CODE" ∧
    prepare_output
      { mkWorld with themes := ["Dracula"] }
      "CODE" (Option.some "dracula") ManifestOption.empty =
      format_output
        { mkWorld with themes := ["Dracula"] }
        "CODE" ManifestOption.empty :=
  ⟨(C8_highlight_fallback { mkWorld with themes := ["Dracula"] }
      "CODE" "dracula" "Dracula" ManifestOption.empty rfl rfl).1,
   (C8_highlight_fallback { mkWorld with themes := ["Dracula"] }
      "CODE" "dracula" "Dracula" ManifestOption.empty rfl rfl).2.1⟩

/-- C10: when auto-discovery is requested and the upward search finds no
manifest, the run does not fail: the manifest selection is None, the
formatter passes the code through unchanged, and the run completes by
emitting exactly the consolidated code with no envelope. -/
theorem C10_discovery_miss (w : World) (cli : Cli) (ip rp input_abs search_from : SPath)
    (code : String) (tr1 tr2 : List Ev)
    (hemp : cli.empty_manifest = false) (hman : cli.manifest = Option.none)
    (hz : cli.zscript = true)
    (hcanon : w.canon rp = Option.some input_abs)
    (hpar : parentDir input_abs = Option.some search_from)
    (hfind : find_cargo_toml w.fexists search_from
      (if cli.stop_at_cwd then w.cwd else Option.none) = Option.none)
    (hin : cli.input = Option.some ip)
    (h1 : resolve_input_path w ip = (Except.ok rp, tr1))
    (h2 : inline_modules w rp = (Except.ok code, tr2))
    (hth : cli.theme = Option.none)
    (hout : cli.output = Option.none) :
    resolve_manifest w cli rp = Except.ok ManifestOption.none ∧
    format_output w code ManifestOption.none = (Except.ok code, []) ∧
    run w cli = (Except.ok (), tr1 ++ tr2 ++ [Ev.writeStdout code]) := by
  have hres : resolve_manifest w cli rp = Except.ok ManifestOption.none := by
    rw [resolve_manifest]
    simp [hemp, hman, hz, hcanon, hpar, hfind]
  refine ⟨hres, rfl, ?_⟩
  simp only [run, hin, h1, h2, hres, prepare_output, apply_syntax_highlighting, hth,
    format_output, hout]
  simp

/-- Witness for C10: an empty filesystem, so the upward search from the
input's parent finds nothing; the run emits the inlined code to stdout. -/
theorem C10_discovery_miss_witness :
    run { mkWorld with inlineRes := fun _ => Option.some "fn main()" }
      ⟨Option.some ["d", "f.rs"], Option.none, Option.none, false, Option.none,
        true, false, false⟩ =
      (Except.ok (), [] ++ [Ev.readFile ["d", "f.rs"]] ++ [Ev.writeStdout "fn main()"]) :=
  (C10_discovery_miss { mkWorld with inlineRes := fun _ => Option.some "fn main()" }
    ⟨Option.some ["d", "f.rs"], Option.none, Option.none, false, Option.none,
      true, false, false⟩
    ["d", "f.rs"] ["d", "f.rs"] ["d", "f.rs"] ["d"] "fn main()" [] [Ev.readFile ["d", "f.rs"]]
    rfl rfl rfl rfl rfl
    (by simp [find_cargo_toml, joinRel, cargoToml, mkWorld])
    rfl rfl rfl rfl rfl).2.2
